import Mathlib

/-!
Verification of the paodate `Date` value type (src/paodate.py).

The `Date` object wraps a single civil (time-zone-naive) `datetime` value
`self.dt`.  We embed that instant as a `DateTime` structure of broken-down
components, and translate each accessor/mutator of the Python class into a
Lean function over it.  Local time is modelled as UTC (the tz-free civil
interpretation used throughout the spec), so `datetime.fromtimestamp` is
epoch-seconds → civil conversion and `time.mktime` is its inverse.

Fallible Python operations (constructor dispatch, `datetime.replace`,
`relativedelta` addition through `replace`, `__cmp__` against a non-`Date`)
are modelled with an explicit `Result`/error value.
-/

namespace Paodate

/-- Python exception kinds raised by the code paths we model:
`ValueError` from `datetime` range validation, `TypeError` from
argument-shape errors and from `Date.__cmp__` against a non-`Date`. -/
inductive PyErr where
  | valueError
  | typeError
deriving DecidableEq

/-- The single canonical instant a `Date` wraps (`self.dt`): a civil
date-time with microsecond granularity, exactly the fields of Python's
`datetime`. -/
structure DateTime where
  year : Nat
  month : Nat
  day : Nat
  hour : Nat
  minute : Nat
  second : Nat
  microsecond : Nat
deriving DecidableEq

/-- Result of a fallible operation on a `Date`. -/
inductive Result where
  | ok : DateTime → Result
  | error : PyErr → Result
deriving DecidableEq

/-- A `datetime.date` value: the date portion only (`Date._get_date`). -/
structure PyDate where
  year : Nat
  month : Nat
  day : Nat
deriving DecidableEq

/-- A `datetime.time` value: the time-of-day portion only (`Date._get_time`). -/
structure PyTime where
  hour : Nat
  minute : Nat
  second : Nat
  microsecond : Nat
deriving DecidableEq

/-- Operands that can be handed to `Date.__cmp__`: another `Date`
(carrying its instant) or some non-`Date` Python value. -/
inductive PyVal where
  | date : DateTime → PyVal
  | intVal : Int → PyVal
  | strVal : String → PyVal
  | noneVal : PyVal
deriving DecidableEq

/-- Result of `Date.__cmp__`: an ordering, or a raised `TypeError`. -/
inductive CmpResult where
  | ord : Ordering → CmpResult
  | error : PyErr → CmpResult
deriving DecidableEq

/-- `calendar.isleap(y)`: Gregorian leap-year rule. -/
def isLeap (y : Nat) : Bool := (y % 4 == 0 && y % 100 != 0) || y % 400 == 0

/-- Length of month `m` (1–12) given the leap flag of its year;
this is `calendar.monthrange(y, m)[1]` with the year abstracted to its
leap flag. -/
def monthLen (leap : Bool) (m : Nat) : Nat :=
  if m = 2 then (if leap then 29 else 28)
  else if m = 4 ∨ m = 6 ∨ m = 9 ∨ m = 11 then 30
  else 31

/-- `calendar.monthrange(y, m)[1]`, the number of days in month `m` of
year `y` (used by `Date.days_in_month` and by `relativedelta`'s day clamp). -/
def daysInMonth (y m : Nat) : Nat := monthLen (isLeap y) m

/-- Number of days in a year with the given leap flag. -/
def yearLen (leap : Bool) : Nat := if leap then 366 else 365

/-- Number of days in year `y`. -/
def daysInYear (y : Nat) : Nat := yearLen (isLeap y)

/-- Cumulative number of days strictly before month `m` in a year with the
given leap flag (`daysBefore leap 1 = 0`, `daysBefore leap 13` = year length). -/
def daysBefore (leap : Bool) : Nat → Nat
  | 0 => 0
  | 1 => 0
  | m + 2 => daysBefore leap (m + 1) + monthLen leap (m + 1)

/-- `yearsDays y k` = total number of days in the `k` consecutive years
`y, y+1, …, y+k-1`. -/
def yearsDays (y : Nat) : Nat → Nat
  | 0 => 0
  | k + 1 => yearsDays y k + daysInYear (y + k)

/-- Day number of the civil date `(y, m, d)` counted from 1970-01-01
(valid for `y ≥ 1970`). -/
def dayNumber (y m d : Nat) : Nat :=
  yearsDays 1970 (y - 1970) + daysBefore (isLeap y) m + (d - 1)

/-- Seconds elapsed since midnight of the instant's day
(`timetuple` drops microseconds, as `Date._get_timestamp` does). -/
def timeOfDay (dt : DateTime) : Nat := dt.hour * 3600 + dt.minute * 60 + dt.second

/-- Epoch seconds of an instant with year ≥ 1970:
`time.mktime(dt.timetuple())` on the natural-number side. -/
def toTs (dt : DateTime) : Nat :=
  dayNumber dt.year dt.month dt.day * 86400 + timeOfDay dt

/-- Peel whole years off a day count `n`, starting at year `y`; returns the
year reached and the remaining day-of-year.  Structural fuel makes the
definition kernel-computable; any fuel with `n < 365 * fuel` is enough. -/
def yearSplit : Nat → Nat → Nat → Nat × Nat
  | 0, y, n => (y, n)
  | f + 1, y, n =>
    if n < daysInYear y then (y, n) else yearSplit f (y + 1) (n - daysInYear y)

/-- Peel whole months off a day-of-year `n`, starting at month `m`; twelve
units of fuel always suffice. -/
def monthSplit : Nat → Bool → Nat → Nat → Nat × Nat
  | 0, _, m, n => (m, n)
  | f + 1, leap, m, n =>
    if n < monthLen leap m then (m, n) else monthSplit f leap (m + 1) (n - monthLen leap m)

/-- Civil date `(year, month, day)` of day number `n` (days since 1970-01-01). -/
def civilFromDays (n : Nat) : Nat × Nat × Nat :=
  let p := yearSplit (n + 1) 1970 n
  let q := monthSplit 12 (isLeap p.1) 1 p.2
  (p.1, q.1, q.2 + 1)

/-- `datetime.fromtimestamp(t)` for a non-negative integer timestamp:
the constructor path `Date(t)` for numeric `t` (src/paodate.py line 141). -/
def fromtimestamp (t : Nat) : DateTime :=
  let c := civilFromDays (t / 86400)
  let r := t % 86400
  ⟨c.1, c.2.1, c.2.2, r / 3600, r % 3600 / 60, r % 60, 0⟩

/-- Signed day number from 1970-01-01, defined for all years so that
instants before the epoch get negative timestamps. -/
def dayNumberZ (dt : DateTime) : Int :=
  (if 1970 ≤ dt.year then (yearsDays 1970 (dt.year - 1970) : Int)
   else -(yearsDays dt.year (1970 - dt.year) : Int))
  + (daysBefore (isLeap dt.year) dt.month : Int) + ((dt.day - 1 : Nat) : Int)

/-- `int(time.mktime(self.dt.timetuple()))`: the unclamped epoch-seconds
conversion used by `Date._get_timestamp` (src/paodate.py line 339). -/
def mktime (dt : DateTime) : Int := dayNumberZ dt * 86400 + (timeOfDay dt : Int)

/-- Three-way comparison of natural numbers (Python `cmp` on components). -/
def cmpNat (a b : Nat) : Ordering :=
  if a < b then .lt else if b < a then .gt else .eq

/-- Lexicographic chaining of comparisons. -/
def ordThen : Ordering → Ordering → Ordering
  | .lt, _ => .lt
  | .gt, _ => .gt
  | .eq, o => o

/-- `cmp(self.dt, value.dt)`: Python compares `datetime` values
lexicographically on (year, month, day, hour, minute, second, microsecond). -/
def cmpDT (a b : DateTime) : Ordering :=
  ordThen (cmpNat a.year b.year)
    (ordThen (cmpNat a.month b.month)
      (ordThen (cmpNat a.day b.day)
        (ordThen (cmpNat a.hour b.hour)
          (ordThen (cmpNat a.minute b.minute)
            (ordThen (cmpNat a.second b.second)
              (cmpNat a.microsecond b.microsecond))))))

/-- `MAX = Date(datetime(2038, 1, 1))` (src/paodate.py line 903). -/
def MAXdt : DateTime := ⟨2038, 1, 1, 0, 0, 0, 0⟩

/-- `MIN = Date(0)` (src/paodate.py line 902). -/
def MINdt : DateTime := fromtimestamp 0

/-- `Date._get_timestamp` (src/paodate.py lines 321–339): if the instant
compares greater than `MAX`, return `MAX`'s timestamp (which is
`mktime(MAX.dt)`, since `MAX > MAX` is false); otherwise the unclamped
conversion. -/
def get_timestamp (dt : DateTime) : Int :=
  if cmpDT dt MAXdt = .gt then mktime MAXdt else mktime dt

/-- `Date.__cmp__` (src/paodate.py lines 181–199): compare instants if the
operand is a `Date`, otherwise raise `TypeError`. -/
def dateCmp (dt : DateTime) (v : PyVal) : CmpResult :=
  match v with
  | .date d2 => .ord (cmpDT dt d2)
  | _ => .error .typeError

/-- `Date._get_date` (src/paodate.py line 241): `self.dt.date()`. -/
def get_date (dt : DateTime) : PyDate := ⟨dt.year, dt.month, dt.day⟩

/-- `Date._set_date` (src/paodate.py line 255):
`datetime.combine(value, self.dt.time())`. -/
def set_date (dt : DateTime) (v : PyDate) : DateTime :=
  ⟨v.year, v.month, v.day, dt.hour, dt.minute, dt.second, dt.microsecond⟩

/-- `Date._get_time` (src/paodate.py line 270): `self.dt.time()`. -/
def get_time (dt : DateTime) : PyTime := ⟨dt.hour, dt.minute, dt.second, dt.microsecond⟩

/-- `Date._set_time` (src/paodate.py line 284):
`datetime.combine(self.dt.date(), value)`. -/
def set_time (dt : DateTime) (v : PyTime) : DateTime :=
  ⟨dt.year, dt.month, dt.day, v.hour, v.minute, v.second, v.microsecond⟩

/-- `dt + relativedelta(months = k)` (dateutil): add `k` to the month,
normalize month into 1–12 carrying whole years (dateutil splits `k` into
years and months in `_fix` and re-normalizes once in `__radd__`; for a pure
month delta this equals floored division of `month + k - 1` by 12, the
divisor being positive so `Int.ediv`/`Int.emod` agree with Python's
floor-division), clamp the day to the target month's length, and rebuild
via `datetime.replace`, which raises `ValueError` when the resulting year
leaves 1–9999. -/
def relAddMonths (dt : DateTime) (months : Int) : Result :=
  let t : Int := (dt.month : Int) + months
  let ny : Int := (dt.year : Int) + (t - 1) / 12
  let nm : Nat := ((t - 1) % 12).toNat + 1
  if 1 ≤ ny ∧ ny ≤ 9999 then
    .ok { dt with year := ny.toNat, month := nm,
                  day := min (daysInMonth ny.toNat nm) dt.day }
  else .error .valueError

/-- `Date._set_month` (src/paodate.py line 416):
`self.dt += relativedelta(months = value - self.dt.month)`. -/
def set_month (dt : DateTime) (value : Int) : Result :=
  relAddMonths dt (value - (dt.month : Int))

/-- `dt + timedelta(days = -1)`: step one calendar day backwards,
keeping the time of day. -/
def subOneDay (dt : DateTime) : DateTime :=
  if 1 < dt.day then { dt with day := dt.day - 1 }
  else if 1 < dt.month then
    { dt with month := dt.month - 1, day := daysInMonth dt.year (dt.month - 1) }
  else { dt with year := dt.year - 1, month := 12, day := 31 }

/-- `Date.end_of_month` (src/paodate.py lines 669–681):
`datetime(y, m, 1, 23, 59, 59, 999999) + relativedelta(months = 1, days = -1)`
(dateutil applies the month shift through `replace` first, then the day
delta as a `timedelta`). -/
def end_of_month (dt : DateTime) : Result :=
  match relAddMonths ⟨dt.year, dt.month, 1, 23, 59, 59, 999999⟩ 1 with
  | .ok e => .ok (subOneDay e)
  | .error e => .error e

/-- `Date.days_in_month` (src/paodate.py line 610):
`calendar.monthrange(self.year, self.month)[1]`. -/
def days_in_month (dt : DateTime) : Nat := daysInMonth dt.year dt.month

/-- `Date._set_year` (src/paodate.py line 384): `self.dt.replace(year = value)`.
`datetime.replace` validates the new combination and raises `ValueError`
when the day is out of range for the month in the new year. -/
def set_year (dt : DateTime) (value : Int) : Result :=
  if 1 ≤ value ∧ value ≤ 9999 ∧ dt.day ≤ daysInMonth value.toNat dt.month then
    .ok { dt with year := value.toNat }
  else .error .valueError

/-- Validity of positional arguments to Python's `datetime(...)` constructor:
each component must lie in `datetime`'s documented ranges. -/
def ValidArgs (y mo d h mi s us : Int) : Prop :=
  1 ≤ y ∧ y ≤ 9999 ∧ 1 ≤ mo ∧ mo ≤ 12 ∧ 1 ≤ d ∧
  d ≤ (daysInMonth y.toNat mo.toNat : Int) ∧
  0 ≤ h ∧ h ≤ 23 ∧ 0 ≤ mi ∧ mi ≤ 59 ∧ 0 ≤ s ∧ s ≤ 59 ∧
  0 ≤ us ∧ us ≤ 999999

instance (y mo d h mi s us : Int) : Decidable (ValidArgs y mo d h mi s us) := by
  unfold ValidArgs
  exact inferInstance

/-- `datetime(y, mo, d, h, mi, s, us)` with range validation
(`ValueError` outside the documented ranges). -/
def mkdatetime (y mo d h mi s us : Int) : Result :=
  if ValidArgs y mo d h mi s us then
    .ok ⟨y.toNat, mo.toNat, d.toNat, h.toNat, mi.toNat, s.toNat, us.toNat⟩
  else .error .valueError

/-- The sequence branch of `Date.__init__` (src/paodate.py lines 142–143):
`self.dt = datetime(*dt)`.  `datetime` takes at least three and at most
eight positional arguments, and the eighth positional slot is `tzinfo`,
which rejects a numeric value with `TypeError`; so a list of numeric
components succeeds only for lengths 3–7. -/
def init_seq : List Int → Result
  | [y, mo, d] => mkdatetime y mo d 0 0 0 0
  | [y, mo, d, h] => mkdatetime y mo d h 0 0 0
  | [y, mo, d, h, mi] => mkdatetime y mo d h mi 0 0
  | [y, mo, d, h, mi, s] => mkdatetime y mo d h mi s 0
  | [y, mo, d, h, mi, s, us] => mkdatetime y mo d h mi s us
  | _ => .error .typeError

/-- `%B`: full English month name (C locale), as `time.strftime` renders it. -/
def monthName : Nat → String
  | 1 => "January"
  | 2 => "February"
  | 3 => "March"
  | 4 => "April"
  | 5 => "May"
  | 6 => "June"
  | 7 => "July"
  | 8 => "August"
  | 9 => "September"
  | 10 => "October"
  | 11 => "November"
  | 12 => "December"
  | _ => ""

/-- `%d`: day of month zero-padded to two digits. -/
def pad2 (n : Nat) : String := if n < 10 then "0" ++ toString n else toString n

/-- The ordinal-suffix selection of `Date._get_fancy`
(src/paodate.py lines 779–786): `st` for day in `[1, 21, 31]`, `nd` for 2,
`rd` for 3, `th` otherwise. -/
def ordinalSuffix (day : Nat) : String :=
  if day = 1 ∨ day = 21 ∨ day = 31 then "st"
  else if day = 2 then "nd"
  else if day = 3 then "rd"
  else "th"

/-- `Date._get_fancy` (src/paodate.py lines 769–791):
`strftime("%B %d" + extra)` where `extra` is the ordinal suffix, plus
`", %Y"` when the year is displayed. -/
def get_fancy (dt : DateTime) (display_year : Bool) : String :=
  monthName dt.month ++ " " ++ pad2 dt.day ++ ordinalSuffix dt.day ++
    (if display_year then ", " ++ toString dt.year else "")

/-- `Date.fancy` (src/paodate.py line 793). -/
def fancy (dt : DateTime) : String := get_fancy dt true

/-- `Date.fancy_no_year` (src/paodate.py lines 795–807). -/
def fancy_no_year (dt : DateTime) : String := get_fancy dt false

/-- The shape of every instant produced by `fromtimestamp`: a valid civil
date-time with year at least 1970 (component ranges of `datetime`). -/
def ValidTs (dt : DateTime) : Prop :=
  1970 ≤ dt.year ∧ 1 ≤ dt.month ∧ dt.month ≤ 12 ∧ 1 ≤ dt.day ∧
  dt.day ≤ daysInMonth dt.year dt.month ∧
  dt.hour ≤ 23 ∧ dt.minute ≤ 59 ∧ dt.second ≤ 59

instance (dt : DateTime) : Decidable (ValidTs dt) := by
  unfold ValidTs
  exact inferInstance

/-! Calendar arithmetic lemmas. -/

theorem monthLen_pos (leap : Bool) (m : Nat) : 1 ≤ monthLen leap m := by
  unfold monthLen
  split_ifs <;> omega

theorem daysInYear_ge (y : Nat) : 365 ≤ daysInYear y := by
  unfold daysInYear yearLen
  split_ifs <;> omega

theorem daysBefore_succ (leap : Bool) (m : Nat) (hm : 1 ≤ m) :
    daysBefore leap (m + 1) = daysBefore leap m + monthLen leap m := by
  cases m with
  | zero => omega
  | succ k => rfl

theorem daysBefore_le_succ (leap : Bool) (m : Nat) :
    daysBefore leap m ≤ daysBefore leap (m + 1) := by
  cases m with
  | zero => simp [daysBefore]
  | succ k =>
    rw [daysBefore_succ leap (k + 1) (by omega)]
    exact Nat.le_add_right _ _

theorem daysBefore_mono (leap : Bool) {a b : Nat} (h : a ≤ b) :
    daysBefore leap a ≤ daysBefore leap b := by
  induction h with
  | refl => exact Nat.le_refl _
  | step _ ih => exact Nat.le_trans ih (daysBefore_le_succ leap _)

theorem daysBefore_thirteen (leap : Bool) : daysBefore leap 13 = yearLen leap := by
  cases leap <;> rfl

theorem daysBefore_add_monthLen_le (leap : Bool) (m : Nat) (h1 : 1 ≤ m) (h2 : m ≤ 12) :
    daysBefore leap m + monthLen leap m ≤ yearLen leap := by
  rw [← daysBefore_succ leap m h1, ← daysBefore_thirteen leap]
  exact daysBefore_mono leap (by omega)

theorem yearsDays_front (k y : Nat) :
    yearsDays y (k + 1) = daysInYear y + yearsDays (y + 1) k := by
  induction k generalizing y with
  | zero => simp [yearsDays]
  | succ k ih =>
    show yearsDays y (k + 1) + daysInYear (y + (k + 1)) = _
    rw [ih y, show y + (k + 1) = y + 1 + k from by omega]
    show _ = daysInYear y + (yearsDays (y + 1) k + daysInYear (y + 1 + k))
    omega

theorem yearsDays_add (j k y : Nat) :
    yearsDays y (k + j) = yearsDays y k + yearsDays (y + k) j := by
  induction j with
  | zero => simp [yearsDays]
  | succ j ih =>
    show yearsDays y (k + j) + daysInYear (y + (k + j)) = _
    rw [ih, show y + (k + j) = y + k + j from by omega]
    show _ = yearsDays y k + (yearsDays (y + k) j + daysInYear (y + k + j))
    omega

theorem yearsDays_mono (y : Nat) {a b : Nat} (h : a ≤ b) :
    yearsDays y a ≤ yearsDays y b := by
  have e : a + (b - a) = b := by omega
  have := yearsDays_add (b - a) a y
  rw [e] at this
  omega

/-! Correctness of the epoch-seconds conversions. -/

theorem yearSplit_spec :
    ∀ (f y n : Nat), n < 365 * f →
      ∃ Y r, yearSplit f y n = (Y, r) ∧ y ≤ Y ∧ r < daysInYear Y ∧
        yearsDays y (Y - y) + r = n := by
  intro f
  induction f with
  | zero => intro y n h; omega
  | succ f ih =>
    intro y n h
    by_cases hn : n < daysInYear y
    · refine ⟨y, n, by simp [yearSplit, hn], Nat.le_refl y, hn, ?_⟩
      simp [yearsDays]
    · have h1 : n - daysInYear y < 365 * f := by
        have := daysInYear_ge y
        omega
      obtain ⟨Y, r, heq, hle, hlt, hsum⟩ := ih (y + 1) (n - daysInYear y) h1
      refine ⟨Y, r, by simp [yearSplit, hn, heq], by omega, hlt, ?_⟩
      have e : Y - y = (Y - (y + 1)) + 1 := by omega
      rw [e, yearsDays_front]
      have := daysInYear_ge y
      omega

theorem monthSplit_spec :
    ∀ (f : Nat) (leap : Bool) (m n : Nat), 1 ≤ m → 13 ≤ m + f →
      daysBefore leap m + n < yearLen leap →
      ∃ M e, monthSplit f leap m n = (M, e) ∧ 1 ≤ M ∧ M ≤ 12 ∧
        e < monthLen leap M ∧ daysBefore leap M + e = daysBefore leap m + n := by
  intro f
  induction f with
  | zero =>
    intro leap m n h1 h2 h3
    exfalso
    have h13 : daysBefore leap 13 ≤ daysBefore leap m := daysBefore_mono leap (by omega)
    rw [daysBefore_thirteen] at h13
    omega
  | succ f ih =>
    intro leap m n h1 h2 h3
    by_cases hn : n < monthLen leap m
    · have hm12 : m ≤ 12 := by
        by_contra hgt
        have h13 : daysBefore leap 13 ≤ daysBefore leap m := daysBefore_mono leap (by omega)
        rw [daysBefore_thirteen] at h13
        omega
      exact ⟨m, n, by simp [monthSplit, hn], h1, hm12, hn, rfl⟩
    · have hstep := daysBefore_succ leap m h1
      obtain ⟨M, e, heq, hM1, hM2, hlt, hsum⟩ :=
        ih leap (m + 1) (n - monthLen leap m) (by omega) (by omega) (by omega)
      refine ⟨M, e, by simp [monthSplit, hn, heq], hM1, hM2, hlt, by omega⟩

theorem civilFromDays_spec (n : Nat) :
    ∃ Y M D, civilFromDays n = (Y, M, D) ∧ 1970 ≤ Y ∧ 1 ≤ M ∧ M ≤ 12 ∧
      1 ≤ D ∧ D ≤ monthLen (isLeap Y) M ∧ dayNumber Y M D = n := by
  obtain ⟨Y, r, hys, hle, hlt, hsum⟩ := yearSplit_spec (n + 1) 1970 n (by omega)
  have hpre : daysBefore (isLeap Y) 1 + r < yearLen (isLeap Y) := by
    have e1 : daysBefore (isLeap Y) 1 = 0 := rfl
    have e2 : yearLen (isLeap Y) = daysInYear Y := rfl
    omega
  obtain ⟨M, e, hms, hM1, hM2, helt, hesum⟩ :=
    monthSplit_spec 12 (isLeap Y) 1 r (by omega) (by omega) hpre
  refine ⟨Y, M, e + 1, by simp [civilFromDays, hys, hms], hle, hM1, hM2, by omega,
    by omega, ?_⟩
  have e1 : daysBefore (isLeap Y) 1 = 0 := rfl
  unfold dayNumber
  omega

theorem fromtimestamp_spec (t : Nat) :
    ValidTs (fromtimestamp t) ∧ (fromtimestamp t).microsecond = 0 ∧
      toTs (fromtimestamp t) = t := by
  obtain ⟨Y, M, D, hc, hY, hM1, hM2, hD1, hD2, hdn⟩ := civilFromDays_spec (t / 86400)
  have hft : fromtimestamp t =
      ⟨Y, M, D, t % 86400 / 3600, t % 86400 % 3600 / 60, t % 86400 % 60, 0⟩ := by
    simp [fromtimestamp, hc]
  rw [hft]
  have hdim : daysInMonth Y M = monthLen (isLeap Y) M := rfl
  refine ⟨⟨hY, hM1, hM2, hD1, ?_, ?_, ?_, ?_⟩, rfl, ?_⟩
  · show D ≤ daysInMonth Y M
    omega
  · show t % 86400 / 3600 ≤ 23
    omega
  · show t % 86400 % 3600 / 60 ≤ 59
    omega
  · show t % 86400 % 60 ≤ 59
    omega
  show dayNumber Y M D * 86400 +
      (t % 86400 / 3600 * 3600 + t % 86400 % 3600 / 60 * 60 + t % 86400 % 60) = t
  rw [hdn]
  omega

theorem mktime_eq_toTs (dt : DateTime) (h : 1970 ≤ dt.year) :
    mktime dt = (toTs dt : Int) := by
  unfold mktime dayNumberZ toTs dayNumber timeOfDay
  rw [if_pos h]
  omega

/-! Comparison lemmas: `cmpDT` is the lexicographic order on components, and
on valid instants it agrees with the order of epoch seconds. -/

theorem cmpNat_lt_iff (a b : Nat) : cmpNat a b = .lt ↔ a < b := by
  unfold cmpNat
  split_ifs <;> simp_all <;> omega

theorem cmpNat_eq_iff (a b : Nat) : cmpNat a b = .eq ↔ a = b := by
  unfold cmpNat
  split_ifs <;> simp_all <;> omega

theorem cmpNat_gt_iff (a b : Nat) : cmpNat a b = .gt ↔ b < a := by
  unfold cmpNat
  split_ifs <;> simp_all <;> omega

theorem ordThen_lt_iff (x y : Ordering) :
    ordThen x y = .lt ↔ x = .lt ∨ (x = .eq ∧ y = .lt) := by
  cases x <;> simp [ordThen]

theorem ordThen_eq_iff (x y : Ordering) :
    ordThen x y = .eq ↔ x = .eq ∧ y = .eq := by
  cases x <;> simp [ordThen]

theorem ordThen_gt_iff (x y : Ordering) :
    ordThen x y = .gt ↔ x = .gt ∨ (x = .eq ∧ y = .gt) := by
  cases x <;> simp [ordThen]

theorem cmpDT_eq_iff (a b : DateTime) :
    cmpDT a b = .eq ↔
      (a.year = b.year ∧ a.month = b.month ∧ a.day = b.day ∧ a.hour = b.hour ∧
        a.minute = b.minute ∧ a.second = b.second ∧ a.microsecond = b.microsecond) := by
  simp [cmpDT, ordThen_eq_iff, cmpNat_eq_iff]

theorem cmpDT_gt_iff (a b : DateTime) :
    cmpDT a b = .gt ↔
      (b.year < a.year ∨ (a.year = b.year ∧
        (b.month < a.month ∨ (a.month = b.month ∧
          (b.day < a.day ∨ (a.day = b.day ∧
            (b.hour < a.hour ∨ (a.hour = b.hour ∧
              (b.minute < a.minute ∨ (a.minute = b.minute ∧
                (b.second < a.second ∨ (a.second = b.second ∧
                  b.microsecond < a.microsecond)))))))))))) := by
  simp [cmpDT, ordThen_gt_iff, ordThen_eq_iff, cmpNat_gt_iff, cmpNat_eq_iff]

theorem cmpDT_self (a : DateTime) : cmpDT a a = .eq :=
  (cmpDT_eq_iff a a).mpr ⟨rfl, rfl, rfl, rfl, rfl, rfl, rfl⟩

theorem dayNumber_lt (y1 m1 d1 y2 m2 d2 : Nat)
    (hy1 : 1970 ≤ y1) (hm1a : 1 ≤ m1) (hm1b : m1 ≤ 12) (hd1a : 1 ≤ d1)
    (hd1b : d1 ≤ daysInMonth y1 m1)
    (h : y1 < y2 ∨ (y1 = y2 ∧ (m1 < m2 ∨ (m1 = m2 ∧ d1 < d2)))) :
    dayNumber y1 m1 d1 < dayNumber y2 m2 d2 := by
  have hdim1 : daysInMonth y1 m1 = monthLen (isLeap y1) m1 := rfl
  rcases h with h | ⟨hy, h⟩
  · have hD1 : daysBefore (isLeap y1) m1 + monthLen (isLeap y1) m1 ≤ yearLen (isLeap y1) :=
      daysBefore_add_monthLen_le _ m1 hm1a hm1b
    have hstep : yearsDays 1970 ((y1 - 1970) + 1) =
        yearsDays 1970 (y1 - 1970) + daysInYear (1970 + (y1 - 1970)) := rfl
    have e : 1970 + (y1 - 1970) = y1 := by omega
    rw [e] at hstep
    have hmono : yearsDays 1970 ((y1 - 1970) + 1) ≤ yearsDays 1970 (y2 - 1970) :=
      yearsDays_mono 1970 (by omega)
    have hyl : yearLen (isLeap y1) = daysInYear y1 := rfl
    unfold dayNumber
    omega
  subst hy
  rcases h with h | ⟨hm, h⟩
  · have hstep : daysBefore (isLeap y1) (m1 + 1) =
        daysBefore (isLeap y1) m1 + monthLen (isLeap y1) m1 := daysBefore_succ _ m1 hm1a
    have hmono : daysBefore (isLeap y1) (m1 + 1) ≤ daysBefore (isLeap y1) m2 :=
      daysBefore_mono _ (by omega)
    unfold dayNumber
    omega
  subst hm
  unfold dayNumber
  omega

theorem toTs_lt_of_lex (a b : DateTime) (ha : ValidTs a) (hb : ValidTs b)
    (h : a.year < b.year ∨ (a.year = b.year ∧ (a.month < b.month ∨ (a.month = b.month ∧
         (a.day < b.day ∨ (a.day = b.day ∧ (a.hour < b.hour ∨ (a.hour = b.hour ∧
         (a.minute < b.minute ∨ (a.minute = b.minute ∧ a.second < b.second)))))))))) :
    toTs a < toTs b := by
  obtain ⟨ha1, ha2, ha3, ha4, ha5, ha6, ha7, ha8⟩ := ha
  obtain ⟨hb1, hb2, hb3, hb4, hb5, hb6, hb7, hb8⟩ := hb
  rcases h with h | ⟨e1, h⟩
  · have hdn := dayNumber_lt a.year a.month a.day b.year b.month b.day ha1 ha2 ha3 ha4 ha5 (Or.inl h)
    unfold toTs timeOfDay
    omega
  rcases h with h | ⟨e2, h⟩
  · have hdn := dayNumber_lt a.year a.month a.day b.year b.month b.day ha1 ha2 ha3 ha4 ha5 (Or.inr ⟨e1, Or.inl h⟩)
    unfold toTs timeOfDay
    omega
  rcases h with h | ⟨e3, h⟩
  · have hdn := dayNumber_lt a.year a.month a.day b.year b.month b.day ha1 ha2 ha3 ha4 ha5 (Or.inr ⟨e1, Or.inr ⟨e2, h⟩⟩)
    unfold toTs timeOfDay
    omega
  unfold toTs timeOfDay dayNumber
  rw [e1, e2, e3]
  rcases h with h | ⟨e4, h⟩
  · omega
  rcases h with h | ⟨e5, h⟩
  · omega
  omega

theorem cmpDT_lt_of_toTs_lt (a b : DateTime) (ha : ValidTs a) (hb : ValidTs b)
    (h : toTs a < toTs b) : cmpDT a b = .lt := by
  cases hcmp : cmpDT a b with
  | lt => rfl
  | eq =>
    exfalso
    obtain ⟨e1, e2, e3, e4, e5, e6, e7⟩ := (cmpDT_eq_iff a b).mp hcmp
    unfold toTs dayNumber timeOfDay at h
    rw [e1, e2, e3, e4, e5, e6] at h
    omega
  | gt =>
    exfalso
    have hlex := (cmpDT_gt_iff a b).mp hcmp
    have hba : toTs b < toTs a := by
      rcases hlex with h1 | ⟨e1, hlex⟩
      · exact toTs_lt_of_lex b a hb ha (Or.inl h1)
      rcases hlex with h1 | ⟨e2, hlex⟩
      · exact toTs_lt_of_lex b a hb ha (Or.inr ⟨e1.symm, Or.inl h1⟩)
      rcases hlex with h1 | ⟨e3, hlex⟩
      · exact toTs_lt_of_lex b a hb ha (Or.inr ⟨e1.symm, Or.inr ⟨e2.symm, Or.inl h1⟩⟩)
      rcases hlex with h1 | ⟨e4, hlex⟩
      · exact toTs_lt_of_lex b a hb ha
          (Or.inr ⟨e1.symm, Or.inr ⟨e2.symm, Or.inr ⟨e3.symm, Or.inl h1⟩⟩⟩)
      rcases hlex with h1 | ⟨e5, hlex⟩
      · exact toTs_lt_of_lex b a hb ha
          (Or.inr ⟨e1.symm, Or.inr ⟨e2.symm, Or.inr ⟨e3.symm, Or.inr ⟨e4.symm, Or.inl h1⟩⟩⟩⟩)
      rcases hlex with h1 | ⟨e6, hlex⟩
      · exact toTs_lt_of_lex b a hb ha
          (Or.inr ⟨e1.symm, Or.inr ⟨e2.symm, Or.inr ⟨e3.symm,
            Or.inr ⟨e4.symm, Or.inr ⟨e5.symm, h1⟩⟩⟩⟩⟩)
      · exfalso
        unfold toTs dayNumber timeOfDay at h
        rw [e1, e2, e3, e4, e5, e6] at h
        omega
    omega

/-! Helper lemmas for the claim theorems. -/

theorem mkdatetime_ok (y mo d h mi s us : Int) (hv : ValidArgs y mo d h mi s us) :
    mkdatetime y mo d h mi s us =
      .ok ⟨y.toNat, mo.toNat, d.toNat, h.toNat, mi.toNat, s.toNat, us.toNat⟩ := by
  unfold mkdatetime
  rw [if_pos hv]

theorem end_of_month_eq (y m d hh mi s us : Nat) (hm1 : 1 ≤ m) (hm2 : m ≤ 12)
    (hy1 : 1 ≤ y) (hy2 : y ≤ 9998) :
    end_of_month ⟨y, m, d, hh, mi, s, us⟩ =
      .ok ⟨y, m, daysInMonth y m, 23, 59, 59, 999999⟩ := by
  by_cases h12 : m = 12
  · subst h12
    have hrel : relAddMonths ⟨y, 12, 1, 23, 59, 59, 999999⟩ 1 =
        .ok ⟨y + 1, 1, 1, 23, 59, 59, 999999⟩ := by
      unfold relAddMonths
      simp only
      have em : ((12 : Nat) : Int) + 1 - 1 = ((12 : Nat) : Int) := by omega
      rw [em]
      have hdiv : ((12 : Nat) : Int) / 12 = 1 := by decide
      have hmod : ((12 : Nat) : Int) % 12 = 0 := by decide
      rw [hdiv, hmod]
      rw [if_pos (by omega)]
      have ey : ((y : Int) + 1).toNat = y + 1 := by omega
      rw [ey]
      have hmin : min (daysInMonth (y + 1) ((0 : Int).toNat + 1)) 1 = 1 :=
        min_eq_right (monthLen_pos (isLeap (y + 1)) 1)
      rw [hmin]
      exact rfl
    unfold end_of_month
    simp only
    rw [hrel]
    show Result.ok (subOneDay ⟨y + 1, 1, 1, 23, 59, 59, 999999⟩) =
      Result.ok ⟨y, 12, daysInMonth y 12, 23, 59, 59, 999999⟩
    simp only [subOneDay]
    rw [if_neg (by omega), if_neg (by omega)]
    have ey2 : y + 1 - 1 = y := by omega
    rw [ey2]
    exact rfl
  · have hm11 : m ≤ 11 := by omega
    have hrel : relAddMonths ⟨y, m, 1, 23, 59, 59, 999999⟩ 1 =
        .ok ⟨y, m + 1, 1, 23, 59, 59, 999999⟩ := by
      unfold relAddMonths
      simp only
      have em : (m : Int) + 1 - 1 = (m : Int) := by omega
      rw [em]
      have hdiv : (m : Int) / 12 = 0 := Int.ediv_eq_zero_of_lt (by omega) (by omega)
      have hmod : (m : Int) % 12 = (m : Int) := Int.emod_eq_of_lt (by omega) (by omega)
      rw [hdiv, hmod]
      rw [if_pos (by omega)]
      have ey : ((y : Int) + 0).toNat = y := by omega
      have em2 : (m : Int).toNat + 1 = m + 1 := by omega
      rw [ey, em2]
      have hmin : min (daysInMonth y (m + 1)) 1 = 1 :=
        min_eq_right (monthLen_pos (isLeap y) (m + 1))
      rw [hmin]
    unfold end_of_month
    simp only
    rw [hrel]
    show Result.ok (subOneDay ⟨y, m + 1, 1, 23, 59, 59, 999999⟩) =
      Result.ok ⟨y, m, daysInMonth y m, 23, 59, 59, 999999⟩
    simp only [subOneDay]
    rw [if_neg (by omega), if_pos (by omega)]
    have e : m + 1 - 1 = m := by omega
    rw [e]

/-! Claim theorems. -/

/-- C5: assigning the value of a `Date`'s own `date` property back to its
`date` property, and likewise its own `time` property back to its `time`
property, leaves the underlying instant `self.dt` unchanged. -/
theorem date_time_set_idempotent (dt : DateTime) :
    set_date dt (get_date dt) = dt ∧ set_time dt (get_time dt) = dt :=
  ⟨rfl, rfl⟩

/-- C8: the fancy formatting accessor appends the English ordinal suffix
chosen exactly by the day of month: `st` for 1, 21 and 31, `nd` for 2,
`rd` for 3, and `th` for every other day (in particular day 22 gets `th`). -/
theorem fancy_ordinal_suffix (dt : DateTime)
    (h1 : dt.day ≠ 1) (h2 : dt.day ≠ 2) (h3 : dt.day ≠ 3)
    (h21 : dt.day ≠ 21) (h31 : dt.day ≠ 31) :
    fancy dt = monthName dt.month ++ " " ++ pad2 dt.day ++ "th" ++
      (", " ++ toString dt.year) ∧
    fancy ⟨2009, 1, 1, 0, 0, 0, 0⟩ = "January 01st, 2009" ∧
    fancy ⟨2009, 1, 2, 0, 0, 0, 0⟩ = "January 02nd, 2009" ∧
    fancy ⟨2009, 1, 3, 0, 0, 0, 0⟩ = "January 03rd, 2009" ∧
    fancy ⟨2009, 1, 4, 0, 0, 0, 0⟩ = "January 04th, 2009" ∧
    fancy ⟨2009, 1, 21, 0, 0, 0, 0⟩ = "January 21st, 2009" ∧
    fancy ⟨2009, 1, 22, 0, 0, 0, 0⟩ = "January 22th, 2009" ∧
    fancy ⟨2009, 1, 31, 0, 0, 0, 0⟩ = "January 31st, 2009" := by
  refine ⟨?_, by decide, by decide, by decide, by decide, by decide, by decide, by decide⟩
  unfold fancy get_fancy ordinalSuffix
  rw [if_neg (by omega), if_neg h2, if_neg h3]
  simp

/-- C8 witness. -/
theorem fancy_ordinal_suffix_witness :
    fancy ⟨2009, 1, 22, 0, 0, 0, 0⟩ = monthName 1 ++ " " ++ pad2 22 ++ "th" ++
      (", " ++ toString 2009) ∧
    fancy ⟨2009, 1, 1, 0, 0, 0, 0⟩ = "January 01st, 2009" ∧
    fancy ⟨2009, 1, 2, 0, 0, 0, 0⟩ = "January 02nd, 2009" ∧
    fancy ⟨2009, 1, 3, 0, 0, 0, 0⟩ = "January 03rd, 2009" ∧
    fancy ⟨2009, 1, 4, 0, 0, 0, 0⟩ = "January 04th, 2009" ∧
    fancy ⟨2009, 1, 21, 0, 0, 0, 0⟩ = "January 21st, 2009" ∧
    fancy ⟨2009, 1, 22, 0, 0, 0, 0⟩ = "January 22th, 2009" ∧
    fancy ⟨2009, 1, 31, 0, 0, 0, 0⟩ = "January 31st, 2009" :=
  fancy_ordinal_suffix ⟨2009, 1, 22, 0, 0, 0, 0⟩
    (by decide) (by decide) (by decide) (by decide) (by decide)

/-- C10: `fancy` and `fancy_no_year` render the day of month zero-padded to
two digits (`%d`), so every day below 10 carries a leading zero:
day 5 of February renders as `February 05th`, not `February 5th`. -/
theorem fancy_zero_pad (dt : DateTime) (h : dt.day < 10) :
    fancy dt = monthName dt.month ++ " " ++ ("0" ++ toString dt.day) ++
      ordinalSuffix dt.day ++ (", " ++ toString dt.year) ∧
    fancy ⟨2009, 2, 5, 0, 31, 30, 0⟩ = "February 05th, 2009" ∧
    fancy_no_year ⟨2009, 2, 5, 0, 31, 30, 0⟩ = "February 05th" ∧
    fancy_no_year ⟨2009, 2, 5, 0, 31, 30, 0⟩ ≠ "February 5th" := by
  refine ⟨?_, by decide, by decide, by decide⟩
  unfold fancy get_fancy pad2
  rw [if_pos h]
  simp

/-- C10 witness. -/
theorem fancy_zero_pad_witness :
    fancy ⟨2009, 2, 5, 0, 31, 30, 0⟩ = monthName 2 ++ " " ++ ("0" ++ toString 5) ++
      ordinalSuffix 5 ++ (", " ++ toString 2009) ∧
    fancy ⟨2009, 2, 5, 0, 31, 30, 0⟩ = "February 05th, 2009" ∧
    fancy_no_year ⟨2009, 2, 5, 0, 31, 30, 0⟩ = "February 05th" ∧
    fancy_no_year ⟨2009, 2, 5, 0, 31, 30, 0⟩ ≠ "February 5th" :=
  fancy_zero_pad ⟨2009, 2, 5, 0, 31, 30, 0⟩ (by decide)

/-- C9: the year setter is a direct replacement (`dt.replace(year = value)`),
not a delta: setting Feb 29 to a non-leap year raises `ValueError` rather
than normalizing, and a valid replacement leaves month, day and
time-of-day unchanged with the year set to the requested value. -/
theorem set_year_replaces (dt : DateTime) (v : Int)
    (h1 : 1 ≤ v) (h2 : v ≤ 9999) (h3 : dt.day ≤ daysInMonth v.toNat dt.month) :
    set_year dt v =
      .ok ⟨v.toNat, dt.month, dt.day, dt.hour, dt.minute, dt.second, dt.microsecond⟩ ∧
    set_year ⟨2008, 2, 29, 0, 31, 30, 0⟩ 2009 = .error .valueError := by
  refine ⟨?_, by decide⟩
  unfold set_year
  rw [if_pos ⟨h1, h2, h3⟩]

/-- C9 witness. -/
theorem set_year_replaces_witness :
    set_year ⟨2008, 2, 29, 0, 31, 30, 0⟩ 2012 = .ok ⟨2012, 2, 29, 0, 31, 30, 0⟩ ∧
    set_year ⟨2008, 2, 29, 0, 31, 30, 0⟩ 2009 = .error .valueError :=
  set_year_replaces ⟨2008, 2, 29, 0, 31, 30, 0⟩ 2012 (by decide) (by decide) (by decide)

/-- C1 counterexample: at 2009-01-31, setting `month = 2` does not yield
2009-03-03; dateutil's `relativedelta` clamps the day to the length of the
target month, giving 2009-02-28. -/
theorem set_month_jan31_counterexample :
    set_month ⟨2009, 1, 31, 0, 0, 0, 0⟩ 2 = .ok ⟨2009, 2, 28, 0, 0, 0, 0⟩ ∧
    set_month ⟨2009, 1, 31, 0, 0, 0, 0⟩ 2 ≠ .ok ⟨2009, 3, 3, 0, 0, 0, 0⟩ :=
  ⟨by decide, by decide⟩

/-- C1 (amended): setting the month shifts the instant by
`(v - current_month)` calendar months, where the month shift normalizes the
month into 1–12 carrying whole years and clamps the day of month to the
target month's length; in particular 2009-01-31 with `month = 2` yields
2009-02-28, and out-of-range values roll the year (month 13 advances one
year and sets January). -/
theorem set_month_delta_clamps (dt : DateTime) (v : Int)
    (hy1 : 1 ≤ dt.year) (hy2 : dt.year ≤ 9999) (hv1 : 1 ≤ v) (hv2 : v ≤ 12) :
    set_month dt v = .ok ⟨dt.year, v.toNat, min (daysInMonth dt.year v.toNat) dt.day,
      dt.hour, dt.minute, dt.second, dt.microsecond⟩ ∧
    (dt.year ≤ 9998 →
      set_month dt 13 = .ok ⟨dt.year + 1, 1, min 31 dt.day,
        dt.hour, dt.minute, dt.second, dt.microsecond⟩) ∧
    set_month ⟨2009, 1, 31, 0, 0, 0, 0⟩ 2 = .ok ⟨2009, 2, 28, 0, 0, 0, 0⟩ := by
  refine ⟨?_, ?_, by decide⟩
  · unfold set_month relAddMonths
    simp only
    have e : (dt.month : Int) + (v - (dt.month : Int)) = v := by ring
    rw [e]
    have hdiv : (v - 1) / 12 = 0 := Int.ediv_eq_zero_of_lt (by omega) (by omega)
    have hmod : (v - 1) % 12 = v - 1 := Int.emod_eq_of_lt (by omega) (by omega)
    rw [hdiv, hmod]
    rw [if_pos (by omega)]
    have ey : ((dt.year : Int) + 0).toNat = dt.year := by omega
    have ev : (v - 1).toNat + 1 = v.toNat := by omega
    rw [ey, ev]
  · intro hy3
    unfold set_month relAddMonths
    simp only
    have e : (dt.month : Int) + (13 - (dt.month : Int)) = 13 := by ring
    rw [e]
    have hdiv : ((13 : Int) - 1) / 12 = 1 := by decide
    have hmod : ((13 : Int) - 1) % 12 = 0 := by decide
    rw [hdiv, hmod]
    rw [if_pos (by omega)]
    have ey : ((dt.year : Int) + 1).toNat = dt.year + 1 := by omega
    rw [ey]
    exact rfl

/-- C1 witness. -/
theorem set_month_delta_clamps_witness :
    set_month ⟨2009, 1, 31, 0, 0, 0, 0⟩ 2 =
      .ok ⟨2009, 2, min (daysInMonth 2009 2) 31, 0, 0, 0, 0⟩ ∧
    (2009 ≤ 9998 →
      set_month ⟨2009, 1, 31, 0, 0, 0, 0⟩ 13 = .ok ⟨2010, 1, min 31 31, 0, 0, 0, 0⟩) ∧
    set_month ⟨2009, 1, 31, 0, 0, 0, 0⟩ 2 = .ok ⟨2009, 2, 28, 0, 0, 0, 0⟩ :=
  set_month_delta_clamps ⟨2009, 1, 31, 0, 0, 0, 0⟩ 2
    (by decide) (by decide) (by decide) (by decide)

/-- C4 counterexample: a 9-component (and likewise an 8-component) numeric
sequence does not construct successfully; `datetime(*dt)` rejects it with a
`TypeError` because at most eight positional arguments are accepted and the
eighth is the `tzinfo` slot. -/
theorem init_seq_nine_counterexample :
    init_seq [2009, 2, 14, 0, 31, 30, 0, 0, 0] = .error .typeError ∧
    init_seq [2009, 2, 14, 0, 31, 30, 0, 0] = .error .typeError :=
  ⟨rfl, rfl⟩

/-- C4 (amended): an ordered sequence of 3 to 7 numeric components, each in
`datetime`'s valid range, constructs successfully and is interpreted as
(year, month, day[, hour, minute, second, microsecond]) with missing
trailing fields defaulting to zero; 8- and 9-component sequences fail. -/
theorem init_seq_components (l : List Int) (h3 : 3 ≤ l.length) (h7 : l.length ≤ 7)
    (hv : ValidArgs (l.getD 0 0) (l.getD 1 0) (l.getD 2 0) (l.getD 3 0) (l.getD 4 0)
      (l.getD 5 0) (l.getD 6 0)) :
    init_seq l = .ok ⟨(l.getD 0 0).toNat, (l.getD 1 0).toNat, (l.getD 2 0).toNat,
      (l.getD 3 0).toNat, (l.getD 4 0).toNat, (l.getD 5 0).toNat, (l.getD 6 0).toNat⟩ := by
  rcases l with _ | ⟨a0, _ | ⟨a1, _ | ⟨a2, _ | ⟨a3, _ | ⟨a4, _ | ⟨a5, _ | ⟨a6, _ | ⟨a7, l⟩⟩⟩⟩⟩⟩⟩⟩
  · simp at h3
  · simp at h3
  · simp at h3
  · exact mkdatetime_ok a0 a1 a2 0 0 0 0 hv
  · exact mkdatetime_ok a0 a1 a2 a3 0 0 0 hv
  · exact mkdatetime_ok a0 a1 a2 a3 a4 0 0 hv
  · exact mkdatetime_ok a0 a1 a2 a3 a4 a5 0 hv
  · exact mkdatetime_ok a0 a1 a2 a3 a4 a5 a6 hv
  · simp at h7

/-- C4 witness. -/
theorem init_seq_components_witness :
    init_seq [2009, 2, 14] = .ok ⟨2009, 2, 14, 0, 0, 0, 0⟩ :=
  init_seq_components [2009, 2, 14] (by decide) (by decide) (by decide)

/-- C7: for every month of any year (leap or not), `days_in_month` equals
the day component of `end_of_month`; February's `end_of_month` day is 28 in
the non-leap year 2009 and 29 in the leap year 2008. -/
theorem days_in_month_matches_end_of_month (dt : DateTime)
    (hm1 : 1 ≤ dt.month) (hm2 : dt.month ≤ 12) (hy1 : 1 ≤ dt.year) (hy2 : dt.year ≤ 9998) :
    end_of_month dt = .ok ⟨dt.year, dt.month, days_in_month dt, 23, 59, 59, 999999⟩ ∧
    end_of_month ⟨2009, 2, 14, 0, 31, 30, 0⟩ = .ok ⟨2009, 2, 28, 23, 59, 59, 999999⟩ ∧
    end_of_month ⟨2008, 2, 14, 0, 31, 30, 0⟩ = .ok ⟨2008, 2, 29, 23, 59, 59, 999999⟩ ∧
    days_in_month ⟨2009, 2, 14, 0, 31, 30, 0⟩ = 28 ∧
    days_in_month ⟨2008, 2, 14, 0, 31, 30, 0⟩ = 29 := by
  refine ⟨?_, by decide, by decide, by decide, by decide⟩
  obtain ⟨y, m, d, hh, mi, s, us⟩ := dt
  exact end_of_month_eq y m d hh mi s us hm1 hm2 hy1 hy2

/-- C7 witness. -/
theorem days_in_month_matches_end_of_month_witness :
    end_of_month ⟨2009, 2, 14, 0, 31, 30, 0⟩ =
      .ok ⟨2009, 2, days_in_month ⟨2009, 2, 14, 0, 31, 30, 0⟩, 23, 59, 59, 999999⟩ ∧
    end_of_month ⟨2009, 2, 14, 0, 31, 30, 0⟩ = .ok ⟨2009, 2, 28, 23, 59, 59, 999999⟩ ∧
    end_of_month ⟨2008, 2, 14, 0, 31, 30, 0⟩ = .ok ⟨2008, 2, 29, 23, 59, 59, 999999⟩ ∧
    days_in_month ⟨2009, 2, 14, 0, 31, 30, 0⟩ = 28 ∧
    days_in_month ⟨2008, 2, 14, 0, 31, 30, 0⟩ = 29 :=
  days_in_month_matches_end_of_month ⟨2009, 2, 14, 0, 31, 30, 0⟩
    (by decide) (by decide) (by decide) (by decide)

/-- C2: constructing from any integer epoch-seconds value strictly between
`MIN.timestamp` and `MAX.timestamp` and reading `timestamp` back returns
exactly that value. -/
theorem timestamp_roundtrip (t : Nat)
    (h1 : get_timestamp MINdt < (t : Int)) (h2 : (t : Int) < get_timestamp MAXdt) :
    get_timestamp (fromtimestamp t) = (t : Int) := by
  obtain ⟨hvalid, hus, hts⟩ := fromtimestamp_spec t
  have hmax : get_timestamp MAXdt = 2145916800 := by decide
  have htb : t < 2145916800 := by
    rw [hmax] at h2
    omega
  have hmaxts : toTs MAXdt = 2145916800 := by decide
  have hmaxvalid : ValidTs MAXdt := by decide
  have hlt : cmpDT (fromtimestamp t) MAXdt = .lt := by
    apply cmpDT_lt_of_toTs_lt _ _ hvalid hmaxvalid
    rw [hts, hmaxts]
    omega
  unfold get_timestamp
  rw [if_neg (by rw [hlt]; simp)]
  rw [mktime_eq_toTs _ hvalid.1, hts]

/-- C2 witness. -/
theorem timestamp_roundtrip_witness :
    get_timestamp (fromtimestamp 1234567890) = (1234567890 : Int) :=
  timestamp_roundtrip 1234567890 (by decide) (by decide)

/-- C3: reading `timestamp` on an instant beyond `MAX` returns exactly
`MAX`'s timestamp instead of raising; any instant not beyond `MAX` gets the
unclamped conversion, and no symmetric clamp exists below `MIN` (an instant
before the epoch yields its negative unclamped timestamp, below
`MIN.timestamp`). -/
theorem timestamp_clamp (d1 d2 : DateTime)
    (hgt : cmpDT d1 MAXdt = .gt) (hle : cmpDT d2 MAXdt ≠ .gt) :
    get_timestamp d1 = mktime MAXdt ∧
    get_timestamp d2 = mktime d2 ∧
    get_timestamp ⟨2100, 1, 1, 0, 0, 0, 0⟩ = get_timestamp MAXdt ∧
    get_timestamp ⟨1969, 6, 1, 0, 0, 0, 0⟩ = mktime ⟨1969, 6, 1, 0, 0, 0, 0⟩ ∧
    mktime ⟨1969, 6, 1, 0, 0, 0, 0⟩ = -18489600 ∧
    get_timestamp ⟨1969, 6, 1, 0, 0, 0, 0⟩ < get_timestamp MINdt := by
  refine ⟨?_, ?_, by decide, by decide, by decide, by decide⟩
  · unfold get_timestamp
    rw [if_pos hgt]
  · unfold get_timestamp
    rw [if_neg hle]

/-- C3 witness. -/
theorem timestamp_clamp_witness :
    get_timestamp ⟨2100, 1, 1, 0, 0, 0, 0⟩ = mktime MAXdt ∧
    get_timestamp ⟨1969, 6, 1, 0, 0, 0, 0⟩ = mktime ⟨1969, 6, 1, 0, 0, 0, 0⟩ := by
  obtain ⟨p1, p2, _⟩ :=
    timestamp_clamp ⟨2100, 1, 1, 0, 0, 0, 0⟩ ⟨1969, 6, 1, 0, 0, 0, 0⟩ (by decide) (by decide)
  exact ⟨p1, p2⟩

/-- C6: comparison is decided solely by the instant: for epoch seconds
`a < b` (within the library's `MIN`–`MAX` domain), `Date(a) < Date(b)`;
`Date(t) == Date(t)`; and comparing against any operand that is not a
`Date` raises `TypeError`. -/
theorem cmp_by_instant (a b t : Nat) (d : DateTime) (v : PyVal)
    (hab : a < b) (hb : b ≤ 2145916800) (ht : t ≤ 2145916800)
    (hv : ∀ x, v ≠ PyVal.date x) :
    dateCmp (fromtimestamp a) (PyVal.date (fromtimestamp b)) = .ord .lt ∧
    dateCmp (fromtimestamp t) (PyVal.date (fromtimestamp t)) = .ord .eq ∧
    dateCmp d v = .error .typeError := by
  obtain ⟨hva, hua, hta⟩ := fromtimestamp_spec a
  obtain ⟨hvb, hub, htb⟩ := fromtimestamp_spec b
  refine ⟨?_, ?_, ?_⟩
  · show CmpResult.ord (cmpDT (fromtimestamp a) (fromtimestamp b)) = .ord .lt
    rw [cmpDT_lt_of_toTs_lt _ _ hva hvb (by rw [hta, htb]; omega)]
  · show CmpResult.ord (cmpDT (fromtimestamp t) (fromtimestamp t)) = .ord .eq
    rw [cmpDT_self]
  · cases v with
    | date x => exact absurd rfl (hv x)
    | intVal n => rfl
    | strVal str => rfl
    | noneVal => rfl

/-- C6 witness. -/
theorem cmp_by_instant_witness :
    dateCmp (fromtimestamp 1234) (PyVal.date (fromtimestamp 12345)) = .ord .lt ∧
    dateCmp (fromtimestamp 500) (PyVal.date (fromtimestamp 500)) = .ord .eq ∧
    dateCmp ⟨2009, 1, 1, 0, 0, 0, 0⟩ (PyVal.intVal 5) = .error .typeError :=
  cmp_by_instant 1234 12345 500 ⟨2009, 1, 1, 0, 0, 0, 0⟩ (PyVal.intVal 5)
    (by decide) (by decide) (by decide) (fun x h => PyVal.noConfusion h)

end Paodate
